import Mathlib

/-!
Verification development for the qoc lindbladdiscrete module: a shallow
embedding of the density-matrix evolution driver, the RK4 integration step,
the control-representation adapters and the optimization bookkeeping of
qoc/core/lindbladdiscrete.py, together with an embedding of the
TargetDensityInfidelity cost of qoc/standard/costs/targetdensityinfidelity.py.
Density batches are functions from a batch index type d into complex square
matrices over a Hilbert index type q; control vectors are functions from a
channel index type ν into ℂ; machine floats are modelled as real numbers.
-/

set_option maxHeartbeats 1000000

namespace Qoc

/-- Modelled from the spec: the interpolation-policy enumeration of
qoc.models (not under src).  Only the LINEAR policy is supported; the
constructor other stands for any unsupported policy value. -/
inductive InterpolationPolicy where
  | LINEAR : InterpolationPolicy
  | other : InterpolationPolicy

/-- Modelled from the spec: the compute-backend enumeration of qoc.models
(not under src).  The core treats it as an opaque pass-through value. -/
inductive OperationPolicy where
  | CPU : OperationPolicy
  | GPU : OperationPolicy
  | SPARSE : OperationPolicy

/-- Python list indexing: a nonnegative index is looked up directly, a
negative index counts back from the end of the list, and an out-of-range
index is an IndexError, modelled as none. -/
def pyIndex {α : Type} (l : List α) (i : ℤ) : Option α :=
  if 0 ≤ i then l.get? i.toNat
  else if 0 ≤ (l.length : ℤ) + i then l.get? ((l.length : ℤ) + i).toNat
  else none

variable {d q ν : Type} [Fintype q]

/-- Modelled from the spec: qoc.models interpolate_linear (not under src).
For values y1 at x1 and y2 at x2, the value at x3 is
y1 + (x3 - x1)/(x2 - x1) * (y2 - y1), taken componentwise on control
vectors. -/
noncomputable def interpolate_linear (x1 x2 x3 : ℝ) (y1 y2 : ν → ℂ) : ν → ℂ :=
  fun j => y1 j + (((x3 - x1) / (x2 - x1) : ℝ) : ℂ) * (y2 j - y1 j)

/-- Modelled from the spec: qoc.models get_lindbladian (not under src), on a
single density matrix.  The derivative is -i[H, ρ] plus the dissipator sum
of g_k (L_k ρ L_kᴴ - (1/2)(L_kᴴ L_k ρ + ρ L_kᴴ L_k)); the commutator term
is omitted when the hamiltonian is absent and the dissipator sum is empty
when the rates or operators are absent, so the result is the zero matrix
when both are absent. -/
noncomputable def get_lindbladian (ρ : Matrix q q ℂ) (g : Option (List ℝ))
    (h : Option (Matrix q q ℂ)) (l : Option (List (Matrix q q ℂ))) :
    Matrix q q ℂ :=
  (match h with
    | none => 0
    | some hm => (-Complex.I) • (hm * ρ - ρ * hm)) +
  (match g, l with
    | some gs, some ls =>
        ((gs.zip ls).map (fun p =>
          (p.1 : ℂ) • (p.2 * ρ * p.2.conjTranspose -
            ((1 : ℂ) / 2) • (p.2.conjTranspose * p.2 * ρ + ρ * (p.2.conjTranspose * p.2))))).sum
    | _, _ => 0)

/-- The lindbladian applied across a density batch, with the hamiltonian,
rates and operators broadcast identically over the batch. -/
noncomputable def get_lindbladianB (densities : d → Matrix q q ℂ)
    (g : Option (List ℝ)) (h : Option (Matrix q q ℂ))
    (l : Option (List (Matrix q q ℂ))) : d → Matrix q q ℂ :=
  fun i => get_lindbladian (densities i) g h l

/-- The ValueError message raised for an unsupported interpolation policy. -/
def interpolation_error_message : String :=
  "The interpolation policy is not implemented for this method."

/-- The IndexError raised by an out-of-range control lookup. -/
def index_error_message : String :=
  "IndexError: control index out of range"

/-- The control-resolution block of _evolve_step_lindblad_discrete
(src/qoc/core/lindbladdiscrete.py lines 357 to 375): choose the bracketing
pair of control vectors, keep the left bound as c1 and the right bound as
c4, and linearly interpolate the midpoint c2 = c3; a policy other than
LINEAR raises a ValueError. -/
noncomputable def resolveStepControls (t1 t2 t4 : ℝ) (control_sentinel : Bool)
    (control_step : ℕ) (controls : Option (List (ν → ℂ)))
    (interpolation_policy : InterpolationPolicy) :
    Except String (Option (ν → ℂ) × Option (ν → ℂ) × Option (ν → ℂ) × Option (ν → ℂ)) :=
  match controls with
  | none => Except.ok (none, none, none, none)
  | some ctrls =>
    match (if control_sentinel then
            (pyIndex ctrls ((control_step : ℤ) - 1), pyIndex ctrls (control_step : ℤ))
          else
            (pyIndex ctrls (control_step : ℤ), pyIndex ctrls ((control_step : ℤ) + 1))) with
    | (some control_left, some control_right) =>
      (match interpolation_policy with
        | InterpolationPolicy.LINEAR =>
            Except.ok (some control_left,
              some (interpolate_linear t1 t4 t2 control_left control_right),
              some (interpolate_linear t1 t4 t2 control_left control_right),
              some control_right)
        | _ => Except.error interpolation_error_message)
    | _ => Except.error index_error_message

/-- The RK4 step of _evolve_step_lindblad_discrete
(src/qoc/core/lindbladdiscrete.py lines 353 to 402).  Note that the source
computes h3 by reusing h2, and queries the lindblad data independently at
each of the four evaluation times. -/
noncomputable def evolve_step_lindblad_discrete (densities : d → Matrix q q ℂ)
    (dt : ℝ) (time : ℝ) (control_sentinel : Bool) (control_step : ℕ)
    (controls : Option (List (ν → ℂ)))
    (hamiltonian : Option (Option (ν → ℂ) → ℝ → Matrix q q ℂ))
    (interpolation_policy : InterpolationPolicy)
    (lindblad_data : Option (ℝ → List ℝ × List (Matrix q q ℂ))) :
    Except String (d → Matrix q q ℂ) :=
  let t1 := time
  let t2 := time + 0.5 * dt
  let t3 := t2
  let t4 := time + dt
  match resolveStepControls t1 t2 t4 control_sentinel control_step controls
          interpolation_policy with
  | Except.error e => Except.error e
  | Except.ok (c1, c2, _c3, c4) =>
    let hs : Option (Matrix q q ℂ) × Option (Matrix q q ℂ) ×
        Option (Matrix q q ℂ) × Option (Matrix q q ℂ) :=
      match hamiltonian with
      | none => (none, none, none, none)
      | some ham =>
        let h2v := ham c2 t2
        (some (ham c1 t1), some h2v, some h2v, some (ham c4 t4))
    let k1 := (dt : ℂ) • get_lindbladianB densities
      (lindblad_data.map (fun ld => (ld t1).1)) hs.1
      (lindblad_data.map (fun ld => (ld t1).2))
    let k2 := (dt : ℂ) • get_lindbladianB (densities + (0.5 : ℂ) • k1)
      (lindblad_data.map (fun ld => (ld t2).1)) hs.2.1
      (lindblad_data.map (fun ld => (ld t2).2))
    let k3 := (dt : ℂ) • get_lindbladianB (densities + (0.5 : ℂ) • k2)
      (lindblad_data.map (fun ld => (ld t3).1)) hs.2.2.1
      (lindblad_data.map (fun ld => (ld t3).2))
    let k4 := (dt : ℂ) • get_lindbladianB (densities + k3)
      (lindblad_data.map (fun ld => (ld t4).1)) hs.2.2.2
      (lindblad_data.map (fun ld => (ld t4).2))
    Except.ok (densities + ((1 : ℂ) / 6) • (k1 + (2 : ℂ) • k2 + (2 : ℂ) • k3 + k4))

/-- Successful control resolution always returns c3 equal to c2. -/
theorem resolveStepControls_ok_c3_eq_c2 {t1 t2 t4 : ℝ} {s : Bool} {k : ℕ}
    {controls : Option (List (ν → ℂ))} {pol : InterpolationPolicy}
    {c1 c2 c3 c4 : Option (ν → ℂ)}
    (hres : resolveStepControls t1 t2 t4 s k controls pol =
      Except.ok (c1, c2, c3, c4)) : c3 = c2 := by
  cases controls with
  | none =>
    simp only [resolveStepControls, Except.ok.injEq, Prod.mk.injEq] at hres
    rw [← hres.2.2.1, ← hres.2.1]
  | some ctrls =>
    simp only [resolveStepControls] at hres
    split at hres
    · split at hres
      · simp only [Except.ok.injEq, Prod.mk.injEq] at hres
        rw [← hres.2.2.1, ← hres.2.1]
      · exact absurd hres (by simp)
    · exact absurd hres (by simp)

/-- The increment dt * Lindbladian(ρ, data at time t) as claim C1 states it:
the hamiltonian is evaluated at the given control and time and the
dissipation data are queried from the lindblad specification at that same
time, not interpolated. -/
noncomputable def claim_increment (dt : ℝ) (ρs : d → Matrix q q ℂ)
    (hamiltonian : Option (Option (ν → ℂ) → ℝ → Matrix q q ℂ))
    (lindblad_data : Option (ℝ → List ℝ × List (Matrix q q ℂ)))
    (c : Option (ν → ℂ)) (t : ℝ) : d → Matrix q q ℂ :=
  (dt : ℂ) • get_lindbladianB ρs (lindblad_data.map (fun ld => (ld t).1))
    (hamiltonian.map (fun ham => ham c t)) (lindblad_data.map (fun ld => (ld t).2))

/-- One RK4 update exactly as claim C1 states it: k1 at (c1, t1) from ρ,
k2 at (c2, t2) from ρ + k1/2, k3 at (c3, t3) from ρ + k2/2, k4 at (c4, t4)
from ρ + k3, and the result ρ + (k1 + 2 k2 + 2 k3 + k4)/6. -/
noncomputable def claim_rk4 (dt : ℝ) (ρs : d → Matrix q q ℂ)
    (hamiltonian : Option (Option (ν → ℂ) → ℝ → Matrix q q ℂ))
    (lindblad_data : Option (ℝ → List ℝ × List (Matrix q q ℂ)))
    (c1 c2 c3 c4 : Option (ν → ℂ)) (t1 t2 t3 t4 : ℝ) : d → Matrix q q ℂ :=
  let k1 := claim_increment dt ρs hamiltonian lindblad_data c1 t1
  let k2 := claim_increment dt (ρs + (0.5 : ℂ) • k1) hamiltonian lindblad_data c2 t2
  let k3 := claim_increment dt (ρs + (0.5 : ℂ) • k2) hamiltonian lindblad_data c3 t3
  let k4 := claim_increment dt (ρs + k3) hamiltonian lindblad_data c4 t4
  ρs + ((1 : ℂ) / 6) • (k1 + (2 : ℂ) • k2 + (2 : ℂ) • k3 + k4)

/-- Claim C1: one RK4 integration step advances the density batch by
ρ + (k1 + 2 k2 + 2 k3 + k4)/6, with k1 = dt L(ρ, c1, t1),
k2 = dt L(ρ + k1/2, c2, t2), k3 = dt L(ρ + k2/2, c3, t3),
k4 = dt L(ρ + k3, c4, t4), evaluation times t1 = t, t2 = t3 = t + dt/2,
t4 = t + dt, the hamiltonian evaluated as h_i = H(c_i, t_i) when present,
and the dissipation data queried independently at each t_i. -/
theorem claim_C1_rk4_step (densities : d → Matrix q q ℂ) (dt time : ℝ)
    (control_sentinel : Bool) (control_step : ℕ)
    (controls : Option (List (ν → ℂ)))
    (hamiltonian : Option (Option (ν → ℂ) → ℝ → Matrix q q ℂ))
    (interpolation_policy : InterpolationPolicy)
    (lindblad_data : Option (ℝ → List ℝ × List (Matrix q q ℂ)))
    (c1 c2 c3 c4 : Option (ν → ℂ))
    (hres : resolveStepControls time (time + 0.5 * dt) (time + dt)
      control_sentinel control_step controls interpolation_policy =
      Except.ok (c1, c2, c3, c4)) :
    evolve_step_lindblad_discrete densities dt time control_sentinel
        control_step controls hamiltonian interpolation_policy lindblad_data =
      Except.ok (claim_rk4 dt densities hamiltonian lindblad_data c1 c2 c3 c4
        time (time + 0.5 * dt) (time + 0.5 * dt) (time + dt)) := by
  have hc32 : c3 = c2 := resolveStepControls_ok_c3_eq_c2 hres
  subst hc32
  cases hamiltonian with
  | none =>
    simp only [evolve_step_lindblad_discrete, hres, claim_rk4, claim_increment,
      get_lindbladianB, Option.map_none']
  | some ham =>
    simp only [evolve_step_lindblad_discrete, hres, claim_rk4, claim_increment,
      get_lindbladianB, Option.map_some']

/-- Witness for claim C1 at a concrete input: two control steps, linear
policy, no hamiltonian and no dissipation. -/
theorem claim_C1_rk4_step_witness :
    (resolveStepControls 0 (0 + 0.5 * 1) (0 + 1) false 0
        (some [(fun _ => 0 : Fin 1 → ℂ), fun _ => 1]) InterpolationPolicy.LINEAR =
      Except.ok (some (fun _ => 0 : Fin 1 → ℂ),
        some (interpolate_linear 0 (0 + 1) (0 + 0.5 * 1) (fun _ => 0) fun _ => 1),
        some (interpolate_linear 0 (0 + 1) (0 + 0.5 * 1) (fun _ => 0) fun _ => 1),
        some (fun _ => 1 : Fin 1 → ℂ))) ∧
    evolve_step_lindblad_discrete (fun _ => (0 : Matrix (Fin 1) (Fin 1) ℂ) : Fin 1 → _)
        1 0 false 0 (some [(fun _ => 0 : Fin 1 → ℂ), fun _ => 1]) none
        InterpolationPolicy.LINEAR none =
      Except.ok (claim_rk4 1 (fun _ => (0 : Matrix (Fin 1) (Fin 1) ℂ)) none none
        (some (fun _ => 0 : Fin 1 → ℂ))
        (some (interpolate_linear 0 (0 + 1) (0 + 0.5 * 1) (fun _ => 0) fun _ => 1))
        (some (interpolate_linear 0 (0 + 1) (0 + 0.5 * 1) (fun _ => 0) fun _ => 1))
        (some (fun _ => 1 : Fin 1 → ℂ)) 0 (0 + 0.5 * 1) (0 + 0.5 * 1) (0 + 1)) :=
  ⟨rfl, claim_C1_rk4_step _ 1 0 false 0 _ none InterpolationPolicy.LINEAR none
    _ _ _ _ rfl⟩

/-- Helper: the lindbladian with no hamiltonian and no dissipation data is
the zero matrix. -/
theorem get_lindbladian_no_generators (ρ : Matrix q q ℂ) :
    get_lindbladian ρ none none none = 0 := by
  simp [get_lindbladian]

/-- Helper: with no hamiltonian and no lindblad data, whenever control
resolution succeeds the RK4 step leaves the batch unchanged. -/
theorem evolve_step_no_generators (densities : d → Matrix q q ℂ)
    (dt time : ℝ) (control_sentinel : Bool) (control_step : ℕ)
    (controls : Option (List (ν → ℂ)))
    (interpolation_policy : InterpolationPolicy)
    (cs : Option (ν → ℂ) × Option (ν → ℂ) × Option (ν → ℂ) × Option (ν → ℂ))
    (hres : resolveStepControls time (time + 0.5 * dt) (time + dt)
      control_sentinel control_step controls interpolation_policy = Except.ok cs) :
    evolve_step_lindblad_discrete densities dt time control_sentinel
        control_step controls none interpolation_policy none =
      Except.ok densities := by
  obtain ⟨c1, c2, c3, c4⟩ := cs
  have hB : ∀ σ : d → Matrix q q ℂ, get_lindbladianB σ (none : Option (List ℝ))
      (none : Option (Matrix q q ℂ)) (none : Option (List (Matrix q q ℂ))) = 0 := by
    intro σ
    funext i
    simp [get_lindbladianB, get_lindbladian_no_generators]
  simp only [evolve_step_lindblad_discrete, hres, Option.map_none']
  simp [hB, smul_zero, add_zero]

/-- Helper: with no control array, control resolution always succeeds, so
the RK4 step without hamiltonian and lindblad data is the identity. -/
theorem evolve_step_none_controls (densities : d → Matrix q q ℂ)
    (dt time : ℝ) (control_sentinel : Bool) (control_step : ℕ)
    (interpolation_policy : InterpolationPolicy) :
    evolve_step_lindblad_discrete densities dt time control_sentinel
        control_step (none : Option (List (ν → ℂ))) none interpolation_policy
        none = Except.ok densities :=
  evolve_step_no_generators densities dt time control_sentinel control_step
    none interpolation_policy (none, none, none, none) rfl

/-- Claim C7: when the hamiltonian and the lindblad specification are both
absent, the lindbladian is the zero matrix and one integration step returns
the input batch unchanged, whenever control resolution succeeds. -/
theorem claim_C7_step_identity_without_generators (densities : d → Matrix q q ℂ)
    (ρ : Matrix q q ℂ) (dt time : ℝ) (control_sentinel : Bool)
    (control_step : ℕ) (controls : Option (List (ν → ℂ)))
    (interpolation_policy : InterpolationPolicy)
    (cs : Option (ν → ℂ) × Option (ν → ℂ) × Option (ν → ℂ) × Option (ν → ℂ))
    (hres : resolveStepControls time (time + 0.5 * dt) (time + dt)
      control_sentinel control_step controls interpolation_policy = Except.ok cs) :
    get_lindbladian ρ none none none = 0 ∧
    evolve_step_lindblad_discrete densities dt time control_sentinel
        control_step controls none interpolation_policy none =
      Except.ok densities :=
  ⟨get_lindbladian_no_generators ρ,
    evolve_step_no_generators densities dt time control_sentinel control_step
      controls interpolation_policy cs hres⟩

/-- Witness for claim C7 at a concrete input with no control array. -/
theorem claim_C7_step_identity_without_generators_witness :
    (resolveStepControls 0 (0 + 0.5 * 1) (0 + 1) false 0
        (none : Option (List (Fin 1 → ℂ))) InterpolationPolicy.LINEAR =
      Except.ok (none, none, none, none)) ∧
    (get_lindbladian (0 : Matrix (Fin 1) (Fin 1) ℂ) none none none = 0 ∧
      evolve_step_lindblad_discrete (fun _ => (0 : Matrix (Fin 1) (Fin 1) ℂ) : Fin 1 → _)
          1 0 false 0 (none : Option (List (Fin 1 → ℂ))) none
          InterpolationPolicy.LINEAR none =
        Except.ok (fun _ => (0 : Matrix (Fin 1) (Fin 1) ℂ))) :=
  ⟨rfl, claim_C7_step_identity_without_generators _ 0 1 0 false 0 none
    InterpolationPolicy.LINEAR (none, none, none, none) rfl⟩

/-- Claim C4: under the LINEAR policy, c1 is the left bracketing control,
c4 the right one, c2 = c3 is the linear interpolation
c_L + ((t2 - t1)/(t4 - t1)) (c_R - c_L), which is the exact midpoint
(c_L + c_R)/2; the bracketing pair is (controls[control_step - 1],
controls[control_step]) at the final control step and
(controls[control_step], controls[control_step + 1]) otherwise. -/
theorem claim_C4_linear_interpolation_midpoint (t dt : ℝ) (hdt : dt ≠ 0)
    (control_sentinel : Bool) (control_step : ℕ) (ctrls : List (ν → ℂ))
    (cl cr : ν → ℂ)
    (hbr : (if control_sentinel then
        (pyIndex ctrls ((control_step : ℤ) - 1), pyIndex ctrls (control_step : ℤ))
      else
        (pyIndex ctrls (control_step : ℤ), pyIndex ctrls ((control_step : ℤ) + 1))) =
      (some cl, some cr)) :
    resolveStepControls t (t + 0.5 * dt) (t + dt) control_sentinel control_step
        (some ctrls) InterpolationPolicy.LINEAR =
      Except.ok (some cl,
        some (interpolate_linear t (t + dt) (t + 0.5 * dt) cl cr),
        some (interpolate_linear t (t + dt) (t + 0.5 * dt) cl cr),
        some cr) ∧
    interpolate_linear t (t + dt) (t + 0.5 * dt) cl cr =
      fun j => (cl j + cr j) / 2 := by
  constructor
  · simp only [resolveStepControls, hbr]
  · funext j
    simp only [interpolate_linear]
    have h1 : ((t + 0.5 * dt - t) / (t + dt - t) : ℝ) = 1 / 2 := by
      field_simp
      ring
    rw [h1]
    push_cast
    ring

/-- Witness for claim C4 at a concrete input: the non-final branch with the
bracketing pair (controls[0], controls[1]). -/
theorem claim_C4_linear_interpolation_midpoint_witness :
    ((1 : ℝ) ≠ 0) ∧
    ((if false then
        (pyIndex [(fun _ => 0 : Fin 1 → ℂ), fun _ => 1] ((0 : ℤ) - 1),
         pyIndex [(fun _ => 0 : Fin 1 → ℂ), fun _ => 1] (0 : ℤ))
      else
        (pyIndex [(fun _ => 0 : Fin 1 → ℂ), fun _ => 1] (0 : ℤ),
         pyIndex [(fun _ => 0 : Fin 1 → ℂ), fun _ => 1] ((0 : ℤ) + 1))) =
      (some (fun _ => 0 : Fin 1 → ℂ), some (fun _ => 1 : Fin 1 → ℂ))) ∧
    (resolveStepControls 0 (0 + 0.5 * 1) (0 + 1) false 0
        (some [(fun _ => 0 : Fin 1 → ℂ), fun _ => 1]) InterpolationPolicy.LINEAR =
      Except.ok (some (fun _ => 0 : Fin 1 → ℂ),
        some (interpolate_linear 0 (0 + 1) (0 + 0.5 * 1) (fun _ => 0) fun _ => 1),
        some (interpolate_linear 0 (0 + 1) (0 + 0.5 * 1) (fun _ => 0) fun _ => 1),
        some (fun _ => 1 : Fin 1 → ℂ)) ∧
      interpolate_linear 0 (0 + 1) (0 + 0.5 * 1) (fun _ => (0 : ℂ) : Fin 1 → ℂ)
          (fun _ => (1 : ℂ) : Fin 1 → ℂ) =
        fun j => ((fun _ => (0 : ℂ) : Fin 1 → ℂ) j + ((fun _ => (1 : ℂ) : Fin 1 → ℂ)) j) / 2) :=
  ⟨one_ne_zero, rfl,
    claim_C4_linear_interpolation_midpoint 0 1 one_ne_zero false 0
      [(fun _ => 0 : Fin 1 → ℂ), fun _ => 1] (fun _ => 0) (fun _ => 1) rfl⟩

/-- A cost collaborator as the evolution driver sees it: the
requires_step_evaluation flag distinguishing step costs from terminal
costs, and the cost method taking controls, a density batch, the step
index and the operation policy keyword. -/
structure QCost (d q ν : Type) [Fintype q] where
  requires_step_evaluation : Bool
  cost : Option (List (ν → ℂ)) → (d → Matrix q q ℂ) → ℕ → OperationPolicy → ℝ

/-- Modelled from the spec: the derived program state of the evaluation
(the qoc.models program state classes are not under src), carrying the
cost list, dt, the final control and system step indices and the
evolution collaborators. -/
structure PState (d q ν : Type) [Fintype q] where
  costs : List (QCost d q ν)
  dt : ℝ
  final_control_step : ℕ
  final_system_step : ℕ
  hamiltonian : Option (Option (ν → ℂ) → ℝ → Matrix q q ℂ)
  initial_densities : d → Matrix q q ℂ
  interpolation_policy : InterpolationPolicy
  lindblad_data : Option (ℝ → List ℝ × List (Matrix q q ℂ))
  operation_policy : OperationPolicy
  system_step_multiplier : ℕ

/-- Modelled from the spec: the step costs are the members of the full cost
list whose requires_step_evaluation flag is set (the program state classes
are not under src). -/
def step_costs (p : PState d q ν) : List (QCost d q ν) :=
  p.costs.filter (fun c => c.requires_step_evaluation)

/-- Modelled from the claim wording: the terminal costs are the costs that
are not step costs. -/
def terminal_costs (p : PState d q ν) : List (QCost d q ν) :=
  p.costs.filter (fun c => !c.requires_step_evaluation)

/-- The loop state of _evaluate_lindblad_discrete: the current density
batch, the accumulated total error, and the reporter fields recorded at the
final system step. -/
structure EvalReport (d q : Type) [Fintype q] where
  densities : d → Matrix q q ℂ
  total_error : ℝ
  final_densities : Option (d → Matrix q q ℂ)
  final_total_error : Option ℝ

/-- One iteration of the system-step loop of _evaluate_lindblad_discrete
(src/qoc/core/lindbladdiscrete.py lines 275 to 304): resolve the control
step by integer division, evolve the batch, then evaluate every cost of the
full list if this is the final system step (also recording the reporter
fields), and otherwise every step cost. -/
noncomputable def eval_body (controls : Option (List (ν → ℂ)))
    (p : PState d q ν) (s : EvalReport d q) (system_step : ℕ) :
    Except String (EvalReport d q) :=
  let control_step := system_step / p.system_step_multiplier
  let is_final_control_step := control_step == p.final_control_step
  let is_final_system_step := system_step == p.final_system_step
  let time := (system_step : ℝ) * p.dt
  match evolve_step_lindblad_discrete s.densities p.dt time
      is_final_control_step control_step controls p.hamiltonian
      p.interpolation_policy p.lindblad_data with
  | Except.error e => Except.error e
  | Except.ok densities =>
    if is_final_system_step then
      let total_error := p.costs.foldl
        (fun te c => te + c.cost controls densities system_step p.operation_policy)
        s.total_error
      Except.ok ⟨densities, total_error, some densities, some total_error⟩
    else
      let total_error := (step_costs p).foldl
        (fun te c => te + c.cost controls densities system_step p.operation_policy)
        s.total_error
      Except.ok ⟨densities, total_error, s.final_densities, s.final_total_error⟩

/-- The evolution driver _evaluate_lindblad_discrete
(src/qoc/core/lindbladdiscrete.py lines 246 to 306): fold the step body
over system steps 0 to final_system_step inclusive, starting from the
initial densities and zero total error. -/
noncomputable def evaluate_lindblad_discrete (controls : Option (List (ν → ℂ)))
    (p : PState d q ν) : Except String (EvalReport d q) :=
  (List.range (p.final_system_step + 1)).foldlM (eval_body controls p)
    ⟨p.initial_densities, 0, none, none⟩

/-- The density batch after the first n system steps of the driver loop. -/
noncomputable def densities_after (controls : Option (List (ν → ℂ)))
    (p : PState d q ν) : ℕ → Except String (d → Matrix q q ℂ)
  | 0 => Except.ok p.initial_densities
  | n + 1 =>
    match densities_after controls p n with
    | Except.error e => Except.error e
    | Except.ok ρ =>
      evolve_step_lindblad_discrete ρ p.dt ((n : ℝ) * p.dt)
        ((n / p.system_step_multiplier) == p.final_control_step)
        (n / p.system_step_multiplier) controls p.hamiltonian
        p.interpolation_policy p.lindblad_data

/-- The summed step-cost contribution at one system step, evaluated against
the batch that the step produced. -/
noncomputable def step_cost_sum (controls : Option (List (ν → ℂ)))
    (p : PState d q ν) (ρ : d → Matrix q q ℂ) (system_step : ℕ) : ℝ :=
  ((step_costs p).map
    (fun c => c.cost controls ρ system_step p.operation_policy)).sum

/-- The summed contribution of the full cost list, evaluated against a
density batch at a system step. -/
noncomputable def all_cost_sum (controls : Option (List (ν → ℂ)))
    (p : PState d q ν) (ρ : d → Matrix q q ℂ) (system_step : ℕ) : ℝ :=
  (p.costs.map
    (fun c => c.cost controls ρ system_step p.operation_policy)).sum

/-- The summed contribution of the terminal costs only, evaluated against a
density batch at a system step. -/
noncomputable def terminal_cost_sum (controls : Option (List (ν → ℂ)))
    (p : PState d q ν) (ρ : d → Matrix q q ℂ) (system_step : ℕ) : ℝ :=
  ((terminal_costs p).map
    (fun c => c.cost controls ρ system_step p.operation_policy)).sum

/-- The accumulated step-cost contributions over the first n system steps,
each evaluated against the intermediate batch its step produced. -/
noncomputable def step_error_up_to (controls : Option (List (ν → ℂ)))
    (p : PState d q ν) : ℕ → Except String ℝ
  | 0 => Except.ok 0
  | n + 1 =>
    match step_error_up_to controls p n, densities_after controls p (n + 1) with
    | Except.error e, _ => Except.error e
    | Except.ok _, Except.error e => Except.error e
    | Except.ok acc, Except.ok ρ => Except.ok (acc + step_cost_sum controls p ρ n)

/-- The total error amended claim C2 describes: step costs contribute at
every non-final system step against the intermediate batch, and the full
cost list - terminal costs and step costs alike - contributes at the final
system step against the final batch. -/
noncomputable def amended_total_error (controls : Option (List (ν → ℂ)))
    (p : PState d q ν) : Except String ℝ :=
  match step_error_up_to controls p p.final_system_step,
        densities_after controls p (p.final_system_step + 1) with
  | Except.error e, _ => Except.error e
  | Except.ok _, Except.error e => Except.error e
  | Except.ok acc, Except.ok ρfin =>
    Except.ok (acc + all_cost_sum controls p ρfin p.final_system_step)

/-- The total error as claim C2 literally states it: step costs exactly at
the non-final system steps, and only the terminal costs at the final
system step. -/
noncomputable def claimed_total_error (controls : Option (List (ν → ℂ)))
    (p : PState d q ν) : Except String ℝ :=
  match step_error_up_to controls p p.final_system_step,
        densities_after controls p (p.final_system_step + 1) with
  | Except.error e, _ => Except.error e
  | Except.ok _, Except.error e => Except.error e
  | Except.ok acc, Except.ok ρfin =>
    Except.ok (acc + terminal_cost_sum controls p ρfin p.final_system_step)

/-- Helper: a left fold that adds a contribution per element equals the
start value plus the sum of the mapped list. -/
theorem foldl_add_eq_add_sum {α : Type} (l : List α) (f : α → ℝ) (a : ℝ) :
    l.foldl (fun te c => te + f c) a = a + (l.map f).sum := by
  induction l generalizing a with
  | nil => simp
  | cons x xs ih => simp [ih, add_assoc]

/-- Helper: binding an ok value in the Except monad applies the
continuation. -/
theorem ok_bind {ε α β : Type} (a : α) (f : α → Except ε β) :
    (Except.ok a >>= f) = f a := rfl

/-- Helper: binding an error in the Except monad short-circuits. -/
theorem error_bind {ε α β : Type} (e : ε) (f : α → Except ε β) :
    (Except.error e >>= f) = Except.error e := rfl

/-- Helper: the driver loop restricted to the first m system steps, for m
at most the final system step, carries exactly the step-cost partial sum
and the evolved batch, with no reporter fields recorded. -/
theorem evaluate_prefix_eq (controls : Option (List (ν → ℂ)))
    (p : PState d q ν) (m : ℕ) (hm : m ≤ p.final_system_step) :
    (List.range m).foldlM (eval_body controls p)
        (⟨p.initial_densities, 0, none, none⟩ : EvalReport d q) =
      (match step_error_up_to controls p m, densities_after controls p m with
        | Except.error e, _ => Except.error e
        | Except.ok _, Except.error e => Except.error e
        | Except.ok acc, Except.ok ρ =>
          Except.ok (⟨ρ, acc, none, none⟩ : EvalReport d q)) := by
  induction m with
  | zero => rfl
  | succ m ih =>
    have hm2 : m ≤ p.final_system_step := Nat.le_of_succ_le hm
    have hne : (m == p.final_system_step) = false := by
      have : m ≠ p.final_system_step := Nat.ne_of_lt (Nat.lt_of_succ_le hm)
      simp [this]
    rw [List.range_succ, List.foldlM_append, ih hm2]
    cases hse : step_error_up_to controls p m with
    | error e =>
      simp only [error_bind, step_error_up_to, hse]
    | ok acc =>
      cases hda : densities_after controls p m with
      | error e =>
        simp only [error_bind, step_error_up_to, hse, hda, densities_after]
      | ok ρ =>
        simp only [ok_bind, List.foldlM_cons, List.foldlM_nil]
        simp only [eval_body, step_error_up_to, densities_after, hse, hda]
        cases hev : evolve_step_lindblad_discrete ρ p.dt ((m : ℝ) * p.dt)
            ((m / p.system_step_multiplier) == p.final_control_step)
            (m / p.system_step_multiplier) controls p.hamiltonian
            p.interpolation_policy p.lindblad_data with
        | error e => simp [hev, hne]
        | ok ρ2 =>
          simp [hev, hne, foldl_add_eq_add_sum, step_cost_sum]

/-- Claim C2, amended: during one full evaluation the step costs are
invoked at every non-final system step against the intermediate batch, and
at the final system step the driver invokes every cost in the full list -
terminal costs and step costs alike - against the final batch; the
returned total error is the sum of all these contributions. -/
theorem claim_C2_amended_total_error (controls : Option (List (ν → ℂ)))
    (p : PState d q ν) :
    (evaluate_lindblad_discrete controls p).map (fun r => r.total_error) =
      amended_total_error controls p := by
  rw [evaluate_lindblad_discrete, List.range_succ, List.foldlM_append,
    evaluate_prefix_eq controls p p.final_system_step (le_refl _)]
  cases hse : step_error_up_to controls p p.final_system_step with
  | error e =>
    simp only [error_bind, amended_total_error, hse, Except.map]
  | ok acc =>
    cases hda : densities_after controls p p.final_system_step with
    | error e =>
      simp only [error_bind, amended_total_error, hse, hda, densities_after,
        Except.map]
    | ok ρ =>
      simp only [ok_bind, List.foldlM_cons, List.foldlM_nil]
      simp only [eval_body, amended_total_error, densities_after, hse, hda]
      cases hev : evolve_step_lindblad_discrete ρ p.dt
          ((p.final_system_step : ℝ) * p.dt)
          ((p.final_system_step / p.system_step_multiplier) == p.final_control_step)
          (p.final_system_step / p.system_step_multiplier) controls p.hamiltonian
          p.interpolation_policy p.lindblad_data with
      | error e => simp [hev, Except.map]
      | ok ρ2 =>
        simp [hev, foldl_add_eq_add_sum, all_cost_sum, Except.map]

/-- A concrete program state with a single step cost of constant value one,
a single system step, no hamiltonian and no dissipation. -/
noncomputable def stepCostOnlyState : PState (Fin 1) (Fin 1) (Fin 1) :=
  ⟨[⟨true, fun _ _ _ _ => 1⟩], 1, 0, 0, none, (fun _ => 0),
    InterpolationPolicy.LINEAR, none, OperationPolicy.CPU, 1⟩

/-- Counterexample to claim C2 as stated: with a single system step and a
single step cost of constant value one, the driver invokes the step cost at
the final system step (it walks the full cost list there), so the returned
total error is one, while the claimed routing - step costs exactly at
non-final steps, terminal costs at the final step - predicts zero. -/
theorem claim_C2_counterexample :
    (evaluate_lindblad_discrete none stepCostOnlyState).map
        (fun r => r.total_error) = Except.ok 1 ∧
    claimed_total_error none stepCostOnlyState = Except.ok 0 ∧
    (1 : ℝ) ≠ 0 := by
  refine ⟨?_, ?_, one_ne_zero⟩
  · simp [evaluate_lindblad_discrete, stepCostOnlyState, List.range_succ,
      List.foldlM_cons, List.foldlM_nil, eval_body, evolve_step_none_controls,
      Except.map, step_costs]
  · simp [claimed_total_error, stepCostOnlyState, step_error_up_to,
      densities_after, evolve_step_none_controls, terminal_cost_sum,
      terminal_costs]

/-- Claim C9: with a control array present and a non-LINEAR interpolation
policy, the very first iteration of the evaluation loop raises the
configuration ValueError (the program state carries any policy without a
setup-time check), and the whole evaluation aborts with that error and no
partial result. -/
theorem claim_C9_unsupported_policy_fails_at_first_step (p : PState d q ν)
    (ctrls : List (ν → ℂ)) (cl cr : ν → ℂ)
    (hpol : p.interpolation_policy ≠ InterpolationPolicy.LINEAR)
    (hl : pyIndex ctrls
      (if (0 == p.final_control_step : Bool) then (0 : ℤ) - 1 else (0 : ℤ)) =
      some cl)
    (hr : pyIndex ctrls
      (if (0 == p.final_control_step : Bool) then (0 : ℤ) else (0 : ℤ) + 1) =
      some cr) :
    eval_body (some ctrls) p ⟨p.initial_densities, 0, none, none⟩ 0 =
      Except.error interpolation_error_message ∧
    evaluate_lindblad_discrete (some ctrls) p =
      Except.error interpolation_error_message := by
  have hpol2 : p.interpolation_policy = InterpolationPolicy.other := by
    cases hp : p.interpolation_policy with
    | LINEAR => exact absurd hp hpol
    | other => rfl
  have h1 : eval_body (some ctrls) p ⟨p.initial_densities, 0, none, none⟩ 0 =
      Except.error interpolation_error_message := by
    cases hb : (0 == p.final_control_step : Bool) with
    | false =>
      rw [hb] at hl hr
      simp only [if_neg Bool.false_ne_true] at hl hr
      norm_num at hl hr
      simp [eval_body, evolve_step_lindblad_discrete, resolveStepControls,
        Nat.zero_div, hb, hl, hr, hpol2]
    | true =>
      rw [hb] at hl hr
      simp only [if_pos rfl] at hl hr
      norm_num at hl hr
      simp [eval_body, evolve_step_lindblad_discrete, resolveStepControls,
        Nat.zero_div, hb, hl, hr, hpol2]
  refine ⟨h1, ?_⟩
  rw [evaluate_lindblad_discrete, List.range_succ_eq_map]
  simp only [List.foldlM_cons, h1, error_bind]

/-- A concrete program state with the unsupported interpolation policy. -/
noncomputable def otherPolicyState : PState (Fin 1) (Fin 1) (Fin 1) :=
  ⟨[], 1, 1, 1, none, (fun _ => 0), InterpolationPolicy.other, none,
    OperationPolicy.CPU, 1⟩

/-- Witness for claim C9 at a concrete input: two control steps with the
unsupported policy, lookups at indices zero and one. -/
theorem claim_C9_unsupported_policy_fails_at_first_step_witness :
    (otherPolicyState.interpolation_policy ≠ InterpolationPolicy.LINEAR) ∧
    (pyIndex [(fun _ => 0 : Fin 1 → ℂ), fun _ => 1]
      (if (0 == otherPolicyState.final_control_step : Bool) then (0 : ℤ) - 1
        else (0 : ℤ)) = some (fun _ => 0)) ∧
    (pyIndex [(fun _ => 0 : Fin 1 → ℂ), fun _ => 1]
      (if (0 == otherPolicyState.final_control_step : Bool) then (0 : ℤ)
        else (0 : ℤ) + 1) = some (fun _ => 1)) ∧
    (eval_body (some [(fun _ => 0 : Fin 1 → ℂ), fun _ => 1]) otherPolicyState
        ⟨otherPolicyState.initial_densities, 0, none, none⟩ 0 =
      Except.error interpolation_error_message ∧
    evaluate_lindblad_discrete (some [(fun _ => 0 : Fin 1 → ℂ), fun _ => 1])
        otherPolicyState = Except.error interpolation_error_message) :=
  ⟨fun h => InterpolationPolicy.noConfusion h, rfl, rfl,
    claim_C9_unsupported_policy_fails_at_first_step otherPolicyState
      [(fun _ => 0 : Fin 1 → ℂ), fun _ => 1] (fun _ => 0) (fun _ => 1)
      (fun h => InterpolationPolicy.noConfusion h) rfl rfl⟩

/-- Reshape a flat list into consecutive rows of the given column count
(the two-dimensional reshape of numpy). -/
def reshape_rows {α : Type} (cols : ℕ) (l : List α) : List (List α) :=
  if h1 : cols = 0 then []
  else if h2 : l.length = 0 then []
  else l.take cols :: reshape_rows cols (l.drop cols)
termination_by l.length
decreasing_by
  simp only [List.length_drop]
  omega

/-- Helper: reshaping the flattening of a list of rows of the correct
length recovers the rows. -/
theorem reshape_rows_flatten {α : Type} (cols : ℕ) (hc : 0 < cols) :
    ∀ x : List (List α), (∀ r ∈ x, r.length = cols) →
      reshape_rows cols x.flatten = x := by
  intro x
  induction x with
  | nil =>
    intro _
    rw [reshape_rows]
    simp
  | cons r rest ih =>
    intro hlen
    have hr : r.length = cols := hlen r (List.mem_cons_self r rest)
    rw [List.flatten_cons, reshape_rows]
    have hlne : (r ++ rest.flatten).length ≠ 0 := by
      rw [List.length_append, hr]
      omega
    rw [dif_neg (Nat.pos_iff_ne_zero.mp hc), dif_neg hlne,
      List.take_left' hr, List.drop_left' hr]
    congr 1
    exact ih (fun s hs => hlen s (List.mem_cons_of_mem r hs))

/-- Modelled from the spec: qoc.core.common strip_controls (not under src).
Ravel the structured control array to a flat real vector; for complex
controls emit the real components followed by the imaginary components,
doubling the length. -/
def strip_controls (complex_controls : Bool) (controls : List (List ℂ)) :
    List ℝ :=
  let flat := controls.flatten
  if complex_controls then flat.map Complex.re ++ flat.map Complex.im
  else flat.map Complex.re

/-- Modelled from the spec: qoc.core.common slap_controls (not under src).
Rebuild the structured control array of the given (rows, cols) shape from
the flat optimizer vector; for complex controls the first half of the flat
vector holds the real components and the second half the imaginary
components. -/
def slap_controls (complex_controls : Bool) (flat : List ℝ)
    (shape : ℕ × ℕ) : List (List ℂ) :=
  if complex_controls then
    reshape_rows shape.2
      (List.zipWith (fun (a : ℝ) (b : ℝ) => (a : ℂ) + (b : ℂ) * Complex.I)
        (flat.take (flat.length / 2)) (flat.drop (flat.length / 2)))
  else
    reshape_rows shape.2 (flat.map (fun a : ℝ => (a : ℂ)))

/-- Helper: a list of complex numbers with vanishing imaginary parts is
recovered from its real parts. -/
theorem map_re_coe_of_im_zero (f : List ℂ) (h : ∀ z ∈ f, z.im = 0) :
    (f.map Complex.re).map (fun a : ℝ => (a : ℂ)) = f := by
  induction f with
  | nil => rfl
  | cons a l ih =>
    have ha : a.im = 0 := h a (List.mem_cons_self a l)
    have hl : (l.map Complex.re).map (fun a : ℝ => (a : ℂ)) = l :=
      ih (fun z hz => h z (List.mem_cons_of_mem a hz))
    simp only [List.map_cons, hl, List.cons.injEq]
    refine ⟨?_, trivial⟩
    apply Complex.ext <;> simp [ha]

/-- Helper: a list of complex numbers is recovered from its real and
imaginary parts. -/
theorem map_re_add_im (f : List ℂ) :
    f.map (fun z => ((z.re : ℝ) : ℂ) + ((z.im : ℝ) : ℂ) * Complex.I) = f := by
  induction f with
  | nil => rfl
  | cons a l ih => simp [ih, Complex.re_add_im]

/-- Claim C6: for every valid structured control array - rows of a common
positive length, real entries when the complex_controls flag is unset -
slap inverts strip exactly, and for complex controls the flat vector has
twice the number of structured entries. -/
theorem claim_C6_strip_slap_roundtrip (complex_controls : Bool)
    (x : List (List ℂ)) (rows cols : ℕ) (hrows : x.length = rows)
    (hcols : ∀ r ∈ x, r.length = cols) (hpos : 0 < cols)
    (hreal : complex_controls = false → ∀ r ∈ x, ∀ z ∈ r, z.im = 0) :
    slap_controls complex_controls (strip_controls complex_controls x)
        (rows, cols) = x ∧
    (complex_controls = true →
      (strip_controls complex_controls x).length = 2 * x.flatten.length) := by
  cases complex_controls with
  | false =>
    refine ⟨?_, by simp⟩
    have him : ∀ z ∈ x.flatten, z.im = 0 := by
      intro z hz
      rcases List.mem_flatten.mp hz with ⟨r, hrx, hzr⟩
      exact hreal rfl r hrx z hzr
    show reshape_rows cols
      ((x.flatten.map Complex.re).map (fun a : ℝ => (a : ℂ))) = x
    rw [map_re_coe_of_im_zero x.flatten him]
    exact reshape_rows_flatten cols hpos x hcols
  | true =>
    have hlen : (strip_controls true x).length = 2 * x.flatten.length := by
      show (x.flatten.map Complex.re ++ x.flatten.map Complex.im).length =
        2 * x.flatten.length
      simp only [List.length_append, List.length_map]
      omega
    refine ⟨?_, fun _ => hlen⟩
    show reshape_rows cols
      (List.zipWith (fun (a : ℝ) (b : ℝ) => (a : ℂ) + (b : ℂ) * Complex.I)
        ((x.flatten.map Complex.re ++ x.flatten.map Complex.im).take
          ((x.flatten.map Complex.re ++ x.flatten.map Complex.im).length / 2))
        ((x.flatten.map Complex.re ++ x.flatten.map Complex.im).drop
          ((x.flatten.map Complex.re ++ x.flatten.map Complex.im).length / 2))) = x
    have hhalf : (x.flatten.map Complex.re ++ x.flatten.map Complex.im).length / 2 =
        (x.flatten.map Complex.re).length := by
      simp only [List.length_append, List.length_map]
      omega
    rw [hhalf, List.take_left, List.drop_left]
    simp only [List.zipWith_map, List.zipWith_same]
    rw [map_re_add_im]
    exact reshape_rows_flatten cols hpos x hcols

/-- Witness for claim C6 at a concrete input: a one-by-one complex control
array. -/
theorem claim_C6_strip_slap_roundtrip_witness :
    (([[Complex.I]] : List (List ℂ)).length = 1) ∧
    (∀ r ∈ ([[Complex.I]] : List (List ℂ)), r.length = 1) ∧
    (0 < 1) ∧
    ((true = false → ∀ r ∈ ([[Complex.I]] : List (List ℂ)), ∀ z ∈ r, z.im = 0)) ∧
    (slap_controls true (strip_controls true [[Complex.I]]) (1, 1) =
        [[Complex.I]] ∧
      (true = true →
        (strip_controls true [[Complex.I]]).length =
          2 * ([[Complex.I]] : List (List ℂ)).flatten.length)) :=
  ⟨rfl, by simp, Nat.one_pos, by simp,
    claim_C6_strip_slap_roundtrip true [[Complex.I]] 1 1 rfl (by simp)
      Nat.one_pos (by simp)⟩

/-- Modelled from the spec: elementwise complex conjugation of a structured
array (the conjugate function of qoc.standard, not under src). -/
def conjugate (g : List (List ℂ)) : List (List ℂ) :=
  g.map (fun row => row.map (starRingEnd ℂ))

/-- Modelled from the spec: qoc.core.common clip_control_norms (not under
src) scales each control entry whose magnitude exceeds the bound of its
channel back to that bound, preserving the phase. -/
noncomputable def clip_control_norms (max_norms : List ℝ)
    (controls : List (List ℂ)) : List (List ℂ) :=
  controls.map (fun row =>
    List.zipWith (fun z bound =>
      if bound < Complex.abs z then ((bound / Complex.abs z : ℝ) : ℂ) * z
      else z) row max_norms)

/-- A value as seen through the reverse-mode tracer: either wrapped in an
autograd Box because the computation depended on the traced controls, or a
plain array. -/
inductive AGValue (α : Type) where
  | box : α → AGValue α
  | arr : α → AGValue α

/-- Modelled from the spec: the mutable optimization result record
(qoc.models GrapeLindbladResult, not under src), with best_total_error
initialized to plus infinity and the other best fields initially
unrecorded. -/
structure GrapeResult (d q : Type) [Fintype q] where
  best_controls : Option (List (List ℂ))
  best_final_densities : Option (d → Matrix q q ℂ)
  best_iteration : Option ℕ
  best_total_error : WithTop ℝ

/-- The initial optimization result. -/
def initGrapeResult : GrapeResult d q := ⟨none, none, none, ⊤⟩

/-- The best-configuration update of _eldj_wrap
(src/qoc/core/lindbladdiscrete.py lines 228 to 233): when the newly
evaluated total error is strictly below the stored best, overwrite all
four fields of the result together; otherwise leave the record
unchanged. -/
noncomputable def best_update (r : GrapeResult d q) (controls : List (List ℂ))
    (total_error : ℝ) (final_densities : d → Matrix q q ℂ)
    (iteration : ℕ) : GrapeResult d q :=
  if (total_error : WithTop ℝ) < r.best_total_error then
    ⟨some controls, some final_densities, some iteration,
      (total_error : WithTop ℝ)⟩
  else r

/-- One optimization iteration as the best-update sees it: the clipped
controls, the evaluated total error, the unboxed final densities and the
iteration index. -/
structure BestObservation (d q : Type) [Fintype q] where
  controls : List (List ℂ)
  total_error : ℝ
  final_densities : d → Matrix q q ℂ
  iteration : ℕ

/-- The best record accumulated over a trace of optimization iterations. -/
noncomputable def best_fold (obs : List (BestObservation d q)) :
    GrapeResult d q :=
  obs.foldl (fun r o =>
    best_update r o.controls o.total_error o.final_densities o.iteration)
    initGrapeResult

/-- The gradient wrapper _eldj_wrap (src/qoc/core/lindbladdiscrete.py lines
196 to 243) with its external collaborators injected: slap the flat
optimizer vector into structured controls, clip them, obtain the value and
the raw jacobian from the differentiation capability, conjugate the
jacobian for complex controls, unwrap the reported final densities from
their autograd box - when the reported value is not a Box the local
variable final_densities is never assigned and its first use raises a
NameError, modelled as none - update the best configuration, advance the
iteration counter and return the stripped gradient. -/
noncomputable def eldj_wrap (complex_controls : Bool) (controls_shape : ℕ × ℕ)
    (max_norms : List ℝ)
    (ans_jacobian : List (List ℂ) → ℝ × List (List ℂ)) (flat : List ℝ)
    (reporter_final_densities : AGValue (d → Matrix q q ℂ))
    (reporter_iteration : ℕ) (result : GrapeResult d q) :
    Option (GrapeResult d q × ℕ × List ℝ) :=
  let controls := clip_control_norms max_norms
    (slap_controls complex_controls flat controls_shape)
  let total_error := (ans_jacobian controls).1
  let grads0 := (ans_jacobian controls).2
  let grads := if complex_controls then conjugate grads0 else grads0
  match reporter_final_densities with
  | AGValue.arr _ => none
  | AGValue.box v =>
    some (best_update result controls total_error v reporter_iteration,
      reporter_iteration + 1, strip_controls complex_controls grads)

/-- Helper: the best error after one update is the minimum of the stored
best and the new error. -/
theorem best_update_error_eq_min (r : GrapeResult d q)
    (controls : List (List ℂ)) (total_error : ℝ)
    (final_densities : d → Matrix q q ℂ) (iteration : ℕ) :
    (best_update r controls total_error final_densities
        iteration).best_total_error =
      min r.best_total_error (total_error : WithTop ℝ) := by
  by_cases h : (total_error : WithTop ℝ) < r.best_total_error
  · rw [best_update, if_pos h]
    exact (min_eq_right (le_of_lt h)).symm
  · rw [best_update, if_neg h]
    exact (min_eq_left (le_of_not_lt h)).symm

/-- Helper: folding best updates over a trace takes the running minimum of
the observed errors. -/
theorem best_fold_error_eq (r : GrapeResult d q)
    (obs : List (BestObservation d q)) :
    (obs.foldl (fun r o =>
        best_update r o.controls o.total_error o.final_densities o.iteration)
        r).best_total_error =
      (obs.map (fun ob => (ob.total_error : WithTop ℝ))).foldl min
        r.best_total_error := by
  induction obs generalizing r with
  | nil => rfl
  | cons a l ih =>
    rw [List.foldl_cons, List.map_cons, List.foldl_cons, ih,
      best_update_error_eq_min]

/-- Helper: prepending a smaller start to a running minimum keeps the fold
monotone in the start value. -/
theorem foldl_min_le_start (l : List (WithTop ℝ)) (a : WithTop ℝ) :
    l.foldl min a ≤ a := by
  induction l generalizing a with
  | nil => exact le_refl a
  | cons x xs ih => exact le_trans (ih (min a x)) (min_le_left a x)

/-- Claim C5: the four best-result fields are overwritten together exactly
when the new total error is strictly below the stored best (initialized to
plus infinity), so across iterations the best total error is
non-increasing and always equals the running minimum of the observed
errors. -/
theorem claim_C5_best_result_update_and_monotone
    (obs : List (BestObservation d q)) (o : BestObservation d q)
    (r : GrapeResult d q) :
    (initGrapeResult : GrapeResult d q).best_total_error = ⊤ ∧
    ((o.total_error : WithTop ℝ) < r.best_total_error →
      best_update r o.controls o.total_error o.final_densities o.iteration =
        ⟨some o.controls, some o.final_densities, some o.iteration,
          (o.total_error : WithTop ℝ)⟩) ∧
    (¬ (o.total_error : WithTop ℝ) < r.best_total_error →
      best_update r o.controls o.total_error o.final_densities o.iteration = r) ∧
    (best_fold obs).best_total_error =
      (obs.map (fun ob => (ob.total_error : WithTop ℝ))).foldl min ⊤ ∧
    (best_fold (obs ++ [o])).best_total_error ≤
      (best_fold obs).best_total_error := by
  refine ⟨rfl, ?_, ?_, ?_, ?_⟩
  · intro h
    rw [best_update, if_pos h]
  · intro h
    rw [best_update, if_neg h]
  · exact best_fold_error_eq initGrapeResult obs
  · rw [best_fold, List.foldl_append]
    rw [List.foldl_cons, List.foldl_nil, best_update_error_eq_min]
    exact min_le_left _ _

/-- Witness for claim C5 at a concrete input: a one-element trace and the
initial record. -/
theorem claim_C5_best_result_update_and_monotone_witness :
    ((initGrapeResult : GrapeResult (Fin 1) (Fin 1)).best_total_error = ⊤ ∧
    (((0 : ℝ) : WithTop ℝ) <
        (initGrapeResult : GrapeResult (Fin 1) (Fin 1)).best_total_error →
      best_update (initGrapeResult : GrapeResult (Fin 1) (Fin 1)) [] 0
          (fun _ => 0) 0 =
        ⟨some [], some (fun _ => 0), some 0, ((0 : ℝ) : WithTop ℝ)⟩) ∧
    (¬ ((0 : ℝ) : WithTop ℝ) <
        (initGrapeResult : GrapeResult (Fin 1) (Fin 1)).best_total_error →
      best_update (initGrapeResult : GrapeResult (Fin 1) (Fin 1)) [] 0
          (fun _ => 0) 0 = initGrapeResult) ∧
    (best_fold ([⟨[], 0, fun _ => 0, 0⟩] :
        List (BestObservation (Fin 1) (Fin 1)))).best_total_error =
      (([⟨[], 0, fun _ => 0, 0⟩] :
        List (BestObservation (Fin 1) (Fin 1))).map
          (fun ob => (ob.total_error : WithTop ℝ))).foldl min ⊤ ∧
    (best_fold (([⟨[], 0, fun _ => 0, 0⟩] :
        List (BestObservation (Fin 1) (Fin 1))) ++
      [⟨[], 0, fun _ => 0, 0⟩])).best_total_error ≤
      (best_fold ([⟨[], 0, fun _ => 0, 0⟩] :
        List (BestObservation (Fin 1) (Fin 1)))).best_total_error) :=
  claim_C5_best_result_update_and_monotone [⟨[], 0, fun _ => 0, 0⟩]
    ⟨[], 0, fun _ => 0, 0⟩ initGrapeResult

/-- Claim C8: for complex controls the gradient returned to the optimizer
is the stripped elementwise conjugate of the raw jacobian of the total
error with respect to the structured clipped controls; stripping the
conjugate emits the real parts followed by the negated imaginary parts,
and conjugation converts du/dx - i du/dy into du/dx + i du/dy. -/
theorem claim_C8_complex_gradient_conjugated (controls_shape : ℕ × ℕ)
    (max_norms : List ℝ)
    (ans_jacobian : List (List ℂ) → ℝ × List (List ℂ)) (flat : List ℝ)
    (v : d → Matrix q q ℂ) (it : ℕ) (res : GrapeResult d q) :
    (eldj_wrap true controls_shape max_norms ans_jacobian flat
        (AGValue.box v) it res).map (fun out => out.2.2) =
      some (strip_controls true (conjugate
        (ans_jacobian (clip_control_norms max_norms
          (slap_controls true flat controls_shape))).2)) ∧
    (∀ g : List (List ℂ), strip_controls true (conjugate g) =
      g.flatten.map Complex.re ++ g.flatten.map (fun z => -z.im)) ∧
    (∀ x y : ℝ, (starRingEnd ℂ) ((x : ℂ) - (y : ℂ) * Complex.I) =
      (x : ℂ) + (y : ℂ) * Complex.I) := by
  refine ⟨rfl, ?_, ?_⟩
  · intro g
    simp only [strip_controls, conjugate, if_true]
    rw [← List.map_flatten]
    simp [List.map_map, Function.comp_def, Complex.conj_re, Complex.conj_im]
  · intro x y
    simp [map_sub, Complex.conj_ofReal, mul_neg]

/-- Claim C10, refuted on the code: when the reported final densities are
not an autograd Box - as happens when the evolved densities do not depend
on the controls - the local variable final_densities of _eldj_wrap is
never assigned, its first use raises a NameError, and the wrapper produces
no result at all instead of the claimed well-defined value. -/
theorem claim_C10_unboxed_final_densities_crash :
    eldj_wrap false (1, 1) [1] (fun _ => (0, [[0]])) [0]
      (AGValue.arr (fun _ => (0 : Matrix (Fin 1) (Fin 1) ℂ)) :
        AGValue (Fin 1 → Matrix (Fin 1) (Fin 1) ℂ))
      0 (initGrapeResult : GrapeResult (Fin 1) (Fin 1)) = none := rfl

/-- The TargetDensityInfidelity cost collaborator
(src/qoc/standard/costs/targetdensityinfidelity.py): the constructor
records the batch size, the Hilbert size and the conjugate transposes of
the target densities. -/
structure TargetDensityInfidelity (D hs : ℕ) where
  cost_multiplier : ℝ
  density_count : ℕ
  hilbert_size : ℕ
  target_densities_dagger : Fin D → Matrix (Fin hs) (Fin hs) ℂ

/-- The constructor of TargetDensityInfidelity (src lines 28 to 38). -/
def TargetDensityInfidelity.ofTargets {D hs : ℕ}
    (targets : Fin D → Matrix (Fin hs) (Fin hs) ℂ) (cost_multiplier : ℝ) :
    TargetDensityInfidelity D hs :=
  ⟨cost_multiplier, D, hs, fun i => (targets i).conjTranspose⟩

/-- The [:, 0, 0] slice of the batched matrix product: the (0, 0) entry of
each product matrix, a one-dimensional array of length density_count (an
IndexError when the Hilbert size is zero). -/
def slice00 {D hs : ℕ} (products : Fin D → Matrix (Fin hs) (Fin hs) ℂ) :
    Option (Fin D → ℂ) :=
  if hpos : 0 < hs then some (fun i => products i ⟨0, hpos⟩ ⟨0, hpos⟩)
  else none

/-- Modelled from numpy semantics: np.trace with axis1 = -1 and axis2 = -2
applied to a one-dimensional array raises an AxisError, because a
one-dimensional array has no second axis; modelled as none. -/
def npTrace_vector {D : ℕ} (v : Fin D → ℂ) : Option ℂ := none

/-- The cost method of TargetDensityInfidelity (src lines 41 to 60): the
code computes matmul(target_densities_dagger, densities)[:, 0, 0] and then
applies anp.trace with axis1 = -1 and axis2 = -2 to that one-dimensional
array, so the trace raises before the remaining arithmetic runs; the
arithmetic after the trace follows the source text and is dead code. -/
noncomputable def TargetDensityInfidelity.cost {D hs : ℕ}
    (c : TargetDensityInfidelity D hs) (controls : Option (List (ν → ℂ)))
    (densities : Fin D → Matrix (Fin hs) (Fin hs) ℂ)
    (sytem_eval_step : ℕ) : Option ℝ :=
  match slice00 (fun i => c.target_densities_dagger i * densities i) with
  | none => none
  | some sliced =>
    match npTrace_vector sliced with
    | none => none
    | some ip0 =>
      let inner_products := ip0 / (c.hilbert_size : ℂ)
      let fidelities := (inner_products * (starRingEnd ℂ) inner_products).re
      let fidelity_normalized := fidelities / (c.density_count : ℝ)
      some ((1 - fidelity_normalized) * c.cost_multiplier)

/-- The contract claim C3 states for the cost: cost_multiplier times one
minus the average over the batch of the squared magnitude of
tr(target_dagger * density) / hilbert_size. -/
noncomputable def intended_target_density_infidelity {D hs : ℕ}
    (cost_multiplier : ℝ)
    (targets densities : Fin D → Matrix (Fin hs) (Fin hs) ℂ) : ℝ :=
  cost_multiplier * (1 -
    (∑ i, Complex.normSq
      (Matrix.trace ((targets i).conjTranspose * densities i) / (hs : ℂ))) /
    (D : ℝ))

/-- The target density of the first module test of
targetdensityinfidelity.py: the projector onto the first basis state. -/
def tdiTestTarget : Fin 1 → Matrix (Fin 2) (Fin 2) ℂ :=
  fun _ => !![1, 0; 0, 0]

/-- The evolved density of the first module test: the projector onto the
second basis state. -/
def tdiTestDensity : Fin 1 → Matrix (Fin 2) (Fin 2) ℂ :=
  fun _ => !![0, 0; 0, 1]

/-- Claim C3, refuted on the code: invoking the TargetDensityInfidelity
cost on the input of its own module test raises inside anp.trace (the
sliced array [:, 0, 0] is one-dimensional), so the invocation does not
produce the claimed real scalar; the claimed value on this input is
one, which is also what the module test asserts. -/
theorem claim_C3_target_density_infidelity_crashes :
    (TargetDensityInfidelity.ofTargets tdiTestTarget 1).cost
        (none : Option (List (Fin 1 → ℂ))) tdiTestDensity 0 = none ∧
    intended_target_density_infidelity 1 tdiTestTarget tdiTestDensity = 1 := by
  constructor
  · rfl
  · have hct : (!![1, 0; 0, 0] : Matrix (Fin 2) (Fin 2) ℂ).conjTranspose =
        !![1, 0; 0, 0] := by
      ext a b
      fin_cases a <;> fin_cases b <;> simp [Matrix.conjTranspose_apply]
    have hmul : (!![1, 0; 0, 0] : Matrix (Fin 2) (Fin 2) ℂ).conjTranspose *
        (!![0, 0; 0, 1] : Matrix (Fin 2) (Fin 2) ℂ) = !![0, 0; 0, 0] := by
      rw [hct, Matrix.mul_fin_two]
      norm_num
    simp [intended_target_density_infidelity, tdiTestTarget, tdiTestDensity,
      hmul, Matrix.trace_fin_two]

end Qoc
